import Mathlib

/-!
# Stroke Data Analytics — verification of the core design

The repository ships a notebook front end (`main.ipynb`) that launches a GUI
over three collaborating modules: a Dataset Loader, a Query Engine and a
Result Exporter.  The design document fixes their contracts precisely
(data model, the twelve queries, aggregation semantics, error taxonomy,
CSV export).  This file gives a shallow embedding of that core and of the
notebook's launch cell, and proves the design's testable properties.
-/

namespace Stroke

/-- Modelled from the spec: a field value of a Record (`dataset_module.py` is
not under `src/`).  Fields are heterogeneous: numeric fields parse as numbers
or are treated as missing; categorical and free-text fields are strings;
a sentinel marks a missing value. -/
inductive Value where
  | num (q : ℚ)
  | str (s : String)
  | missing
deriving DecidableEq, Repr

/-- Modelled from the spec: the in-memory table produced by the Loader — an
ordered collection of Records; the header names the fields, each row holds
one value per header field. -/
structure Dataset where
  header : List String
  rows : List (List Value)
deriving DecidableEq, Repr

/-- Index of the first occurrence of an element in a list (used for header
lookup and for digit values). -/
def idxIn {α : Type} [DecidableEq α] (f : α) : List α → Option Nat
  | [] => none
  | g :: gs => if g = f then some 0 else (idxIn f gs).map (· + 1)

/-- The value a record holds for a named field (missing when the field is
unknown or the row is short). -/
def getField (d : Dataset) (r : List Value) (f : String) : Value :=
  match idxIn f d.header with
  | some i => r.getD i .missing
  | none => .missing

/-- Numeric view of a value: `some q` exactly for numeric values. -/
def Value.toNum : Value → Option ℚ
  | .num q => some q
  | _ => none

/-- A boolean-like flag field is true when it holds the numeric value 1. -/
def isTrue (d : Dataset) (r : List Value) (f : String) : Bool :=
  getField d r f == Value.num 1

/-- String view of a value (numbers and missing have no string view). -/
def Value.toStr : Value → Option String
  | .str s => some s
  | _ => none

/-- Modelled from the spec: the non-missing numeric values of field `f` over
the subset of `d` selected by the filter `φ`, in dataset order — the list
every statistic of the Query Engine is computed from. -/
def numValuesAt (d : Dataset) (φ : List Value → Bool) (f : String) : List ℚ :=
  ((d.rows.filter φ).map (fun r => getField d r f)).filterMap Value.toNum

/-- Modelled from the spec: mean = arithmetic sum of the subset divided by
its count. -/
def mean (l : List ℚ) : ℚ := l.sum / l.length

/-- The subset sorted ascending (insertion sort keeps the embedding
elementary and executable). -/
def sortedOf (l : List ℚ) : List ℚ := List.insertionSort (· ≤ ·) l

/-- Modelled from the spec: median = middle value of the sorted subset,
average of the two middle values when the subset size is even. -/
def median (l : List ℚ) : ℚ :=
  if l.length % 2 = 1 then (sortedOf l).getD (l.length / 2) 0
  else ((sortedOf l).getD (l.length / 2 - 1) 0 + (sortedOf l).getD (l.length / 2) 0) / 2

/-- Minimum of a list of rationals (0 on the empty list, never used there). -/
def listMin : List ℚ → ℚ
  | [] => 0
  | x :: xs => xs.foldl min x

/-- Maximum of a list of rationals (0 on the empty list, never used there). -/
def listMax : List ℚ → ℚ
  | [] => 0
  | x :: xs => xs.foldl max x

/-- Largest multiplicity of any element of `l`. -/
def maxFreq (l : List ℚ) : Nat := (l.map (fun v => l.count v)).foldr max 0

/-- Modelled from the spec: mode = most frequent value of the subset, ties
broken by the value first encountered in dataset order. -/
def mode (l : List ℚ) : ℚ := ((l.find? (fun v => l.count v == maxFreq l)).getD 0)

/-- Modelled from the spec: the Query Engine's error taxonomy
(`query_module.py` is not under `src/`). -/
inductive QueryError where
  | UnknownQuery
  | InvalidParam
  | EmptyResultSet
deriving DecidableEq, Repr

/-- Modelled from the spec: a QueryResult is a discriminated union of a
scalar report (label → numeric statistic), a record list with a column
projection, a pair of record lists (a partition), or a small table. -/
inductive QueryResult where
  | ScalarReport (pairs : List (String × ℚ))
  | RecordList (header : List String) (rows : List (List Value))
  | RecordListPair (header : List String) (g1 g2 : List (List Value))
  | Table (rows : List (String × ℚ × ℚ))
deriving DecidableEq, Repr

/-- The record-level filter each statistics query applies before
aggregating (queries 6, 10 and 11 range over the whole dataset). -/
def filterOf (d : Dataset) : Nat → (List Value → Bool)
  | 1 => fun r => isTrue d r "smoker" && isTrue d r "hypertension" && isTrue d r "stroke"
  | 2 => fun r => isTrue d r "heart_disease" && isTrue d r "stroke"
  | 3 => fun r => isTrue d r "hypertension"
  | 4 => fun r => isTrue d r "smoker"
  | 5 => fun r => isTrue d r "stroke"
  | _ => fun _ => true

/-- The filtered subset a statistics query aggregates over. -/
def querySubset (d : Dataset) (qid : Nat) : List (List Value) :=
  d.rows.filter (filterOf d qid)

/-- The non-missing numeric values of field `f` over a list of records. -/
def valuesOf (d : Dataset) (rs : List (List Value)) (f : String) : List ℚ :=
  (rs.map (fun r => getField d r f)).filterMap Value.toNum

/-- The three descriptive statistics of one value list, labelled. -/
def statsPairs (tag : String) (l : List ℚ) : List (String × ℚ) :=
  [("mean_" ++ tag, mean l), ("median_" ++ tag, median l), ("mode_" ++ tag, mode l)]

/-- The distinct string values of field `f` over records, first-encountered
order. -/
def stringsOf (d : Dataset) (rs : List (List Value)) (f : String) : List String :=
  ((rs.map (fun r => getField d r f)).filterMap Value.toStr).dedup

/-- True when the record's string field `f` equals `s`. -/
def strIs (d : Dataset) (r : List Value) (f s : String) : Bool :=
  getField d r f == Value.str s

/-- True for values that are categorical/free-text strings. -/
def Value.isStr : Value → Bool
  | .str _ => true
  | _ => false

/-- Stats of `fld` over the records of `rs` matching `φ`, labelled with
`tag`; a group with no numeric values contributes no rows. -/
def groupPairs (d : Dataset) (rs : List (List Value)) (φ : List Value → Bool)
    (fld tag : String) : List (String × ℚ) :=
  let l := valuesOf d (rs.filter φ) fld
  if l.isEmpty then [] else statsPairs tag l

/-- Modelled from the spec: `run(queryId, dataset, params?) -> QueryResult`,
the registry of the eleven runnable queries.  Every query is a pure
reduction of the dataset.  A statistics query whose filtered subset (or
whose subset's list of usable numeric values) is empty fails with
`EmptyResultSet`; query 10 fails with `InvalidParam` on an unknown or
non-numeric field; ids outside 1–11 fail with `UnknownQuery`. -/
def run (qid : Nat) (d : Dataset) (params : Option String) :
    Except QueryError QueryResult :=
  match qid with
  | 1 =>
    let l := valuesOf d (querySubset d 1) "age"
    if l.isEmpty then .error .EmptyResultSet
    else .ok (.ScalarReport (statsPairs "age" l))
  | 2 =>
    let la := valuesOf d (querySubset d 2) "age"
    let lg := valuesOf d (querySubset d 2) "glucose"
    if la.isEmpty || lg.isEmpty then .error .EmptyResultSet
    else .ok (.ScalarReport [("mean_age", mean la), ("mean_glucose", mean lg)])
  | 3 =>
    let sub := querySubset d 3
    if sub.isEmpty then .error .EmptyResultSet
    else .ok (.ScalarReport ((stringsOf d sub "gender").flatMap
      (fun g => groupPairs d sub (fun r => strIs d r "gender" g) "age" (g ++ "_age"))))
  | 4 =>
    let sub := querySubset d 4
    if sub.isEmpty then .error .EmptyResultSet
    else .ok (.ScalarReport
      (groupPairs d sub (fun r => isTrue d r "stroke") "age" "stroke_age" ++
       groupPairs d sub (fun r => !isTrue d r "stroke") "age" "no_stroke_age"))
  | 5 =>
    let sub := querySubset d 5
    if sub.isEmpty then .error .EmptyResultSet
    else .ok (.ScalarReport
      (groupPairs d sub (fun r => strIs d r "residence" "Urban") "age" "urban_age" ++
       groupPairs d sub (fun r => strIs d r "residence" "Rural") "age" "rural_age"))
  | 6 =>
    if d.rows.isEmpty then .error .EmptyResultSet
    else .ok (.Table ((stringsOf d d.rows "dietary").map (fun c =>
      (c, (d.rows.countP (fun r => strIs d r "dietary" c && isTrue d r "stroke") : ℚ),
          (d.rows.countP (fun r => strIs d r "dietary" c && !isTrue d r "stroke") : ℚ)))))
  | 7 =>
    .ok (.RecordList d.header (d.rows.filter
      (fun r => isTrue d r "hypertension" && isTrue d r "stroke")))
  | 8 =>
    .ok (.RecordListPair d.header
      (d.rows.filter (fun r => isTrue d r "hypertension" && isTrue d r "stroke"))
      (d.rows.filter (fun r => isTrue d r "hypertension" && !isTrue d r "stroke")))
  | 9 =>
    .ok (.RecordList d.header (d.rows.filter
      (fun r => isTrue d r "heart_disease" && isTrue d r "stroke")))
  | 10 =>
    match params with
    | none => .error .InvalidParam
    | some f =>
      if f ∈ d.header then
        if d.rows.any (fun r => (getField d r f).isStr) then .error .InvalidParam
        else
          let l := valuesOf d d.rows f
          if l.isEmpty then .error .EmptyResultSet
          else .ok (.ScalarReport (statsPairs f l))
      else .error .InvalidParam
  | 11 =>
    if d.rows.isEmpty then .error .EmptyResultSet
    else .ok (.ScalarReport
      (groupPairs d d.rows (fun r => isTrue d r "stroke") "sleep_hours" "stroke_sleep" ++
       groupPairs d d.rows (fun r => !isTrue d r "stroke") "sleep_hours" "no_stroke_sleep"))
  | _ => .error .UnknownQuery

/-- Modelled from the spec: the session state the Presentation Layer owns —
the dataset loaded once per session, and the single most-recent-result
buffer the Exporter reads. -/
structure Session where
  dataset : Dataset
  lastResult : Option QueryResult
deriving DecidableEq, Repr

/-- Modelled from the spec: one query round trip of the session.  A
successful query replaces the most-recent-result buffer; a failed query
yields no QueryResult and leaves the buffer as it was. -/
def runSession (s : Session) (qid : Nat) (params : Option String) :
    Session × Except QueryError QueryResult :=
  match run qid s.dataset params with
  | .ok r => ({ s with lastResult := some r }, .ok r)
  | .error e => (s, .error e)

/-! ## Order facts about the aggregation helpers -/

theorem foldl_min_le_init (xs : List ℚ) : ∀ a : ℚ, xs.foldl min a ≤ a := by
  induction xs with
  | nil => intro a; simp
  | cons x xs ih =>
    intro a
    calc (x :: xs).foldl min a = xs.foldl min (min a x) := rfl
      _ ≤ min a x := ih _
      _ ≤ a := min_le_left _ _

theorem foldl_min_le_mem (xs : List ℚ) : ∀ (a x : ℚ), x ∈ xs → xs.foldl min a ≤ x := by
  induction xs with
  | nil => intro a x hx; cases hx
  | cons y ys ih =>
    intro a x hx
    rcases List.mem_cons.1 hx with rfl | hx
    · calc (x :: ys).foldl min a = ys.foldl min (min a x) := rfl
        _ ≤ min a x := foldl_min_le_init _ _
        _ ≤ x := min_le_right _ _
    · exact ih _ _ hx

theorem listMin_le (l : List ℚ) (x : ℚ) (hx : x ∈ l) : listMin l ≤ x := by
  cases l with
  | nil => cases hx
  | cons a xs =>
    rcases List.mem_cons.1 hx with rfl | hx
    · exact foldl_min_le_init xs x
    · exact foldl_min_le_mem xs a x hx

theorem init_le_foldl_max (xs : List ℚ) : ∀ a : ℚ, a ≤ xs.foldl max a := by
  induction xs with
  | nil => intro a; simp
  | cons x xs ih =>
    intro a
    calc a ≤ max a x := le_max_left _ _
      _ ≤ xs.foldl max (max a x) := ih _
      _ = (x :: xs).foldl max a := rfl

theorem mem_le_foldl_max (xs : List ℚ) : ∀ (a x : ℚ), x ∈ xs → x ≤ xs.foldl max a := by
  induction xs with
  | nil => intro a x hx; cases hx
  | cons y ys ih =>
    intro a x hx
    rcases List.mem_cons.1 hx with rfl | hx
    · calc x ≤ max a x := le_max_right _ _
        _ ≤ ys.foldl max (max a x) := init_le_foldl_max _ _
        _ = (x :: ys).foldl max a := rfl
    · exact ih _ _ hx

theorem le_listMax (l : List ℚ) (x : ℚ) (hx : x ∈ l) : x ≤ listMax l := by
  cases l with
  | nil => cases hx
  | cons a xs =>
    rcases List.mem_cons.1 hx with rfl | hx
    · exact init_le_foldl_max xs x
    · exact mem_le_foldl_max xs a x hx

theorem mem_sortedOf (l : List ℚ) (x : ℚ) : x ∈ sortedOf l ↔ x ∈ l :=
  (List.perm_insertionSort (· ≤ ·) l).mem_iff

theorem length_sortedOf (l : List ℚ) : (sortedOf l).length = l.length :=
  (List.perm_insertionSort (· ≤ ·) l).length_eq

theorem getD_sortedOf_bounds (l : List ℚ) (i : Nat) (hi : i < (sortedOf l).length) :
    listMin l ≤ (sortedOf l).getD i 0 ∧ (sortedOf l).getD i 0 ≤ listMax l := by
  have hget : (sortedOf l).getD i 0 = (sortedOf l)[i] := by
    simp [List.getD_eq_getElem?_getD, List.getElem?_eq_getElem hi]
  have hmem : (sortedOf l)[i] ∈ l := (mem_sortedOf l _).1 (List.getElem_mem hi)
  rw [hget]
  exact ⟨listMin_le l _ hmem, le_listMax l _ hmem⟩

theorem median_bounds (l : List ℚ) (h : l ≠ []) :
    listMin l ≤ median l ∧ median l ≤ listMax l := by
  have hpos : 0 < l.length := List.length_pos.2 h
  unfold median
  by_cases hpar : l.length % 2 = 1
  · rw [if_pos hpar]
    exact getD_sortedOf_bounds l _ (by rw [length_sortedOf]; omega)
  · rw [if_neg hpar]
    have h2 : 2 ≤ l.length := by omega
    have hb1 := getD_sortedOf_bounds l (l.length / 2 - 1) (by rw [length_sortedOf]; omega)
    have hb2 := getD_sortedOf_bounds l (l.length / 2) (by rw [length_sortedOf]; omega)
    constructor
    · have := hb1.1; have := hb2.1; linarith
    · have := hb1.2; have := hb2.2; linarith

/-! ## Frequency facts about the mode -/

theorem le_foldr_max_nat (ns : List Nat) : ∀ n ∈ ns, n ≤ ns.foldr max 0 := by
  induction ns with
  | nil => intro n hn; cases hn
  | cons m ms ih =>
    intro n hn
    rcases List.mem_cons.1 hn with rfl | hn
    · exact le_max_left _ _
    · exact le_trans (ih n hn) (le_max_right _ _)

theorem foldr_max_nat_mem (ns : List Nat) : ns.foldr max 0 ∈ ns ∨ ns.foldr max 0 = 0 := by
  induction ns with
  | nil => exact Or.inr rfl
  | cons m ms ih =>
    rcases max_choice m (ms.foldr max 0) with hc | hc
    · exact Or.inl (by rw [List.foldr_cons, hc]; exact List.mem_cons_self _ _)
    · rcases ih with hm | h0
      · exact Or.inl (by rw [List.foldr_cons, hc]; exact List.mem_cons_of_mem _ hm)
      · rcases Nat.eq_zero_or_pos m with rfl | hmp
        · exact Or.inr (by simp [hc, h0])
        · exact Or.inl (by rw [List.foldr_cons, h0, Nat.max_zero]; exact List.mem_cons_self _ _)

theorem count_le_maxFreq (l : List ℚ) (w : ℚ) (hw : w ∈ l) : l.count w ≤ maxFreq l :=
  le_foldr_max_nat _ _ (List.mem_map_of_mem (fun v => l.count v) hw)

theorem exists_count_eq_maxFreq (l : List ℚ) (h : l ≠ []) :
    ∃ v ∈ l, l.count v = maxFreq l := by
  rcases foldr_max_nat_mem (l.map fun v => l.count v) with hm | h0
  · rcases List.mem_map.1 hm with ⟨v, hv, hev⟩
    exact ⟨v, hv, hev⟩
  · obtain ⟨x, hx⟩ := List.exists_mem_of_ne_nil l h
    have h1 : 0 < l.count x := List.count_pos_iff.2 hx
    have h2 : l.count x ≤ maxFreq l := count_le_maxFreq l x hx
    have h3 : maxFreq l = 0 := h0
    omega

theorem find?_mode_eq (l : List ℚ) (h : l ≠ []) :
    l.find? (fun v => l.count v == maxFreq l) = some (mode l) := by
  obtain ⟨v, hv, hcnt⟩ := exists_count_eq_maxFreq l h
  have hsome : (l.find? (fun v => l.count v == maxFreq l)).isSome :=
    List.find?_isSome.2 ⟨v, hv, by simp [hcnt]⟩
  obtain ⟨m, hm⟩ := Option.isSome_iff_exists.1 hsome
  rw [hm]
  simp [mode, hm]

theorem mode_spec (l : List ℚ) (h : l ≠ []) :
    mode l ∈ l ∧ l.count (mode l) = maxFreq l ∧
      (∀ w ∈ l, l.count w ≤ l.count (mode l)) ∧
      ∃ pre post, l = pre ++ mode l :: post ∧
        ∀ w ∈ pre, l.count w ≠ l.count (mode l) := by
  have hfind := find?_mode_eq l h
  obtain ⟨hpred, pre, post, hsplit, hpre⟩ := List.find?_eq_some.1 hfind
  have hcount : l.count (mode l) = maxFreq l := by simpa using hpred
  refine ⟨?_, hcount, ?_, pre, post, hsplit, ?_⟩
  · have hmem : mode l ∈ pre ++ mode l :: post :=
      List.mem_append.2 (Or.inr (List.mem_cons_self _ _))
    rwa [← hsplit] at hmem
  · intro w hw
    rw [hcount]
    exact count_le_maxFreq l w hw
  · intro w hw
    have := hpre w hw
    simp at this
    rw [hcount]
    exact this

end Stroke

namespace Stroke

/-- The spec's worked example: two smoker/hypertension/stroke patients aged
50 and 60. -/
def exDataset : Dataset :=
  { header := ["age", "gender", "hypertension", "heart_disease", "smoker",
               "stroke", "residence", "glucose", "sleep_hours", "dietary"]
    rows := [[.num 50, .str "Male", .num 1, .num 0, .num 1, .num 1,
              .str "Urban", .num 100, .num 7, .str "Vegan"],
             [.num 60, .str "Female", .num 1, .num 0, .num 1, .num 1,
              .str "Rural", .num 120, .num 6, .str "Mixed"]] }

/-- The spec's worked example verbatim: exactly the four fields the example
gives, records in dataset order. -/
def specExample : Dataset :=
  { header := ["age", "smoker", "hypertension", "stroke"]
    rows := [[.num 50, .num 1, .num 1, .num 1],
             [.num 60, .num 1, .num 1, .num 1]] }

/-- A dataset with the full header and no data rows. -/
def emptyDS : Dataset :=
  { header := ["age", "gender", "hypertension", "heart_disease", "smoker",
               "stroke", "residence", "glucose", "sleep_hours", "dietary"]
    rows := [] }

example : valuesOf exDataset (querySubset exDataset 1) "age" = [50, 60] := by decide

example : mean [50, 60] = 55 := by norm_num [mean]
example : median [50, 60] = 55 := by
  norm_num [median, sortedOf, List.insertionSort, List.orderedInsert]
example : median [3, 1, 2] = 2 := by
  norm_num [median, sortedOf, List.insertionSort, List.orderedInsert]
example : mode [5, 7, 7, 5, 3] = 5 := by decide
example : listMin [4, 1, 6] = 1 := by decide

/-- C1: for every dataset and every filter whose filtered subset of
non-missing numeric values is non-empty, the statistics satisfy the
reference definitions: mean is the sum of the subset divided by its count;
median is the middle value of the sorted subset (the average of the two
middle values when the size is even); the median lies between the minimum
and maximum of the subset; and the mode occurs in the subset with maximal
frequency, ties broken by the value first encountered in dataset order. -/
theorem statistics_satisfy_reference_definitions
    (d : Dataset) (φ : List Value → Bool) (f : String)
    (h : numValuesAt d φ f ≠ []) :
    mean (numValuesAt d φ f)
        = (numValuesAt d φ f).sum / ((numValuesAt d φ f).length : ℚ)
    ∧ median (numValuesAt d φ f)
        = (if (numValuesAt d φ f).length % 2 = 1 then
            (sortedOf (numValuesAt d φ f)).getD ((numValuesAt d φ f).length / 2) 0
          else
            ((sortedOf (numValuesAt d φ f)).getD ((numValuesAt d φ f).length / 2 - 1) 0 +
              (sortedOf (numValuesAt d φ f)).getD ((numValuesAt d φ f).length / 2) 0) / 2)
    ∧ listMin (numValuesAt d φ f) ≤ median (numValuesAt d φ f)
    ∧ median (numValuesAt d φ f) ≤ listMax (numValuesAt d φ f)
    ∧ mode (numValuesAt d φ f) ∈ numValuesAt d φ f
    ∧ (∀ w ∈ numValuesAt d φ f,
        (numValuesAt d φ f).count w
          ≤ (numValuesAt d φ f).count (mode (numValuesAt d φ f)))
    ∧ ∃ pre post, numValuesAt d φ f = pre ++ mode (numValuesAt d φ f) :: post
        ∧ ∀ w ∈ pre, (numValuesAt d φ f).count w
            ≠ (numValuesAt d φ f).count (mode (numValuesAt d φ f)) := by
  obtain ⟨hb1, hb2⟩ := median_bounds (numValuesAt d φ f) h
  obtain ⟨hm1, _, hm2, hm3⟩ := mode_spec (numValuesAt d φ f) h
  exact ⟨rfl, rfl, hb1, hb2, hm1, hm2, hm3⟩

theorem statistics_satisfy_reference_definitions_witness :
    listMin (numValuesAt exDataset (filterOf exDataset 1) "age")
      ≤ median (numValuesAt exDataset (filterOf exDataset 1) "age") :=
  (statistics_satisfy_reference_definitions exDataset (filterOf exDataset 1) "age"
    (by decide)).2.2.1

/-- C8: on the spec's two-record example dataset, query 1 (age statistics
filtered to smoker, hypertension and stroke all true) reports mean age 55
and median age 55 (the mode is the first-encountered age 50). -/
theorem query1_on_spec_example :
    run 1 specExample none =
      .ok (.ScalarReport
        [("mean_age", 55), ("median_age", 55), ("mode_age", 50)]) := by
  have hl : valuesOf specExample (querySubset specExample 1) "age" = [50, 60] := by
    decide
  have hmean : mean [(50 : ℚ), 60] = 55 := by norm_num [mean]
  have hmedian : median [(50 : ℚ), 60] = 55 := by
    norm_num [median, sortedOf, List.insertionSort, List.orderedInsert]
  have hmode : mode [(50 : ℚ), 60] = 50 := by decide
  simp [run, hl, statsPairs, hmean, hmedian, hmode]

/-- C2: a statistics query (1–6, 10 with a known field, 11) whose filtered
subset is empty fails with `EmptyResultSet`; the engine is a total function,
so no crash, zero division or NaN can occur. -/
theorem empty_subset_yields_EmptyResultSet (d : Dataset) (p : Option String)
    (f : String) :
    (querySubset d 1 = [] → run 1 d p = .error .EmptyResultSet)
    ∧ (querySubset d 2 = [] → run 2 d p = .error .EmptyResultSet)
    ∧ (querySubset d 3 = [] → run 3 d p = .error .EmptyResultSet)
    ∧ (querySubset d 4 = [] → run 4 d p = .error .EmptyResultSet)
    ∧ (querySubset d 5 = [] → run 5 d p = .error .EmptyResultSet)
    ∧ (querySubset d 6 = [] → run 6 d p = .error .EmptyResultSet)
    ∧ (f ∈ d.header → querySubset d 10 = [] →
        run 10 d (some f) = .error .EmptyResultSet)
    ∧ (querySubset d 11 = [] → run 11 d p = .error .EmptyResultSet) := by
  have hall : ∀ q : Nat, 6 ≤ q → querySubset d q = d.rows := by
    intro q hq
    have : filterOf d q = fun _ => true := by
      unfold filterOf
      match q, hq with
      | (n + 6), _ => rfl
    rw [querySubset, this, List.filter_true]
  refine ⟨?_, ?_, ?_, ?_, ?_, ?_, ?_, ?_⟩
  · intro h; simp [run, h, valuesOf]
  · intro h; simp [run, h, valuesOf]
  · intro h; simp [run, h]
  · intro h; simp [run, h]
  · intro h; simp [run, h]
  · intro h
    rw [hall 6 (by norm_num)] at h
    simp [run, h]
  · intro hf h
    rw [hall 10 (by norm_num)] at h
    simp [run, hf, h, valuesOf]
  · intro h
    rw [hall 11 (by norm_num)] at h
    simp [run, h]

theorem empty_subset_yields_EmptyResultSet_witness :
    run 1 emptyDS none = .error .EmptyResultSet
    ∧ run 2 emptyDS none = .error .EmptyResultSet
    ∧ run 3 emptyDS none = .error .EmptyResultSet
    ∧ run 4 emptyDS none = .error .EmptyResultSet
    ∧ run 5 emptyDS none = .error .EmptyResultSet
    ∧ run 6 emptyDS none = .error .EmptyResultSet
    ∧ run 10 emptyDS (some "age") = .error .EmptyResultSet
    ∧ run 11 emptyDS none = .error .EmptyResultSet :=
  ⟨(empty_subset_yields_EmptyResultSet emptyDS none "age").1 (by decide),
   (empty_subset_yields_EmptyResultSet emptyDS none "age").2.1 (by decide),
   (empty_subset_yields_EmptyResultSet emptyDS none "age").2.2.1 (by decide),
   (empty_subset_yields_EmptyResultSet emptyDS none "age").2.2.2.1 (by decide),
   (empty_subset_yields_EmptyResultSet emptyDS none "age").2.2.2.2.1 (by decide),
   (empty_subset_yields_EmptyResultSet emptyDS none "age").2.2.2.2.2.1 (by decide),
   (empty_subset_yields_EmptyResultSet emptyDS none "age").2.2.2.2.2.2.1
     (by decide) (by decide),
   (empty_subset_yields_EmptyResultSet emptyDS none "age").2.2.2.2.2.2.2 (by decide)⟩

/-- C4: query 10 fails with `InvalidParam` when the given field name names
no field of the dataset, and when the named field holds a non-numeric
(string) value somewhere while the numeric statistics mean and median are
requested. -/
theorem query10_unknown_or_nonnumeric_field_InvalidParam
    (d : Dataset) (f : String) :
    (f ∉ d.header → run 10 d (some f) = .error .InvalidParam)
    ∧ ((∃ r ∈ d.rows, (getField d r f).isStr = true) →
        run 10 d (some f) = .error .InvalidParam) := by
  constructor
  · intro h
    simp [run, h]
  · intro h
    by_cases hf : f ∈ d.header
    · have hany : d.rows.any (fun r => (getField d r f).isStr) = true :=
        List.any_eq_true.2 h
      simp [run, hf, hany]
    · simp [run, hf]

theorem query10_unknown_or_nonnumeric_field_InvalidParam_witness :
    run 10 exDataset (some "bmi") = .error .InvalidParam
    ∧ run 10 exDataset (some "gender") = .error .InvalidParam :=
  ⟨(query10_unknown_or_nonnumeric_field_InvalidParam exDataset "bmi").1 (by decide),
   (query10_unknown_or_nonnumeric_field_InvalidParam exDataset "gender").2
     ⟨[.num 50, .str "Male", .num 1, .num 0, .num 1, .num 1,
       .str "Urban", .num 100, .num 7, .str "Vegan"], by decide, by decide⟩⟩

/-- C5: a run that fails with a QueryError produces no QueryResult — the
call returns the error — and leaves the previously stored most-recent
result untouched as the exportable state. -/
theorem failed_query_preserves_lastResult (s : Session) (qid : Nat)
    (p : Option String) (e : QueryError)
    (h : run qid s.dataset p = .error e) :
    (runSession s qid p).1.lastResult = s.lastResult
    ∧ (runSession s qid p).2 = .error e := by
  simp [runSession, h]

theorem failed_query_preserves_lastResult_witness :
    (runSession ⟨emptyDS, some (.ScalarReport [("mean_age", 7)])⟩ 1 none).1.lastResult
      = some (.ScalarReport [("mean_age", 7)]) :=
  (failed_query_preserves_lastResult
    ⟨emptyDS, some (.ScalarReport [("mean_age", 7)])⟩ 1 none
    .EmptyResultSet (by rfl)).1

/-- C7: every query is a pure read-only reduction — running any query id
with any parameter leaves the session's dataset exactly as it was. -/
theorem run_leaves_dataset_unchanged (s : Session) (qid : Nat)
    (p : Option String) :
    (runSession s qid p).1.dataset = s.dataset := by
  unfold runSession
  cases h : run qid s.dataset p <;> simp

/-! ## Delimited text: splitting and joining character streams -/

/-- Split a character stream at every occurrence of `sep` (the empty stream
is one empty field, as for a delimited line with no separator). -/
def splitOnSep (sep : Char) : List Char → List (List Char)
  | [] => [[]]
  | c :: cs =>
    let r := splitOnSep sep cs
    if c = sep then [] :: r
    else
      match r with
      | [] => [[c]]
      | g :: gs => (c :: g) :: gs

/-- Join fields with a separator character between consecutive fields. -/
def joinSep (sep : Char) : List (List Char) → List Char
  | [] => []
  | [l] => l
  | l :: ls => l ++ sep :: joinSep sep ls

theorem splitOnSep_ne_nil (sep : Char) (cs : List Char) :
    splitOnSep sep cs ≠ [] := by
  induction cs with
  | nil => simp [splitOnSep]
  | cons c cs ih =>
    simp only [splitOnSep]
    by_cases h : c = sep
    · simp [h]
    · rw [if_neg h]
      cases hr : splitOnSep sep cs with
      | nil => simp
      | cons g gs => simp

theorem splitOnSep_no_sep (sep : Char) (cs : List Char) (h : sep ∉ cs) :
    splitOnSep sep cs = [cs] := by
  induction cs with
  | nil => rfl
  | cons c cs ih =>
    have hc : ¬ c = sep := by
      intro hh
      exact h (by rw [hh]; exact List.mem_cons_self _ _)
    have hcs : sep ∉ cs := fun hm => h (List.mem_cons_of_mem _ hm)
    simp only [splitOnSep, if_neg hc, ih hcs]

theorem splitOnSep_append (sep : Char) (l rest : List Char) (h : sep ∉ l) :
    splitOnSep sep (l ++ sep :: rest) = l :: splitOnSep sep rest := by
  induction l with
  | nil => simp [splitOnSep]
  | cons c l ih =>
    have hc : ¬ c = sep := by
      intro hh
      exact h (by rw [hh]; exact List.mem_cons_self _ _)
    have hl : sep ∉ l := fun hm => h (List.mem_cons_of_mem _ hm)
    simp only [List.cons_append, splitOnSep, if_neg hc, List.append_eq, ih hl]

theorem splitOnSep_joinSep (sep : Char) (lines : List (List Char))
    (hne : lines ≠ []) (h : ∀ l ∈ lines, sep ∉ l) :
    splitOnSep sep (joinSep sep lines) = lines := by
  induction lines with
  | nil => exact absurd rfl hne
  | cons l ls ih =>
    cases ls with
    | nil =>
      simpa [joinSep] using splitOnSep_no_sep sep l (h l (List.mem_cons_self _ _))
    | cons l2 ls2 =>
      have hjoin : joinSep sep (l :: l2 :: ls2) = l ++ sep :: joinSep sep (l2 :: ls2) :=
        rfl
      rw [hjoin, splitOnSep_append sep l _ (h l (List.mem_cons_self _ _)),
        ih (by simp) (fun x hx => h x (List.mem_cons_of_mem _ hx))]

/-! ## Decimal digits and exact number serialization -/

/-- The ten decimal digit characters in order. -/
def digitsList : List Char := "0123456789".data

/-- The character rendering digit `d` (defaults to `'0'` above 9, a case the
renderers below never produce). -/
def digitChar (d : Nat) : Char := digitsList.getD d '0'

/-- The digit denoted by a character, if any: its position in `digitsList`. -/
def digitVal (c : Char) : Option Nat := idxIn c digitsList

/-- True when every character is a decimal digit. -/
def isDigits (cs : List Char) : Bool := cs.all (fun c => (digitVal c).isSome)

/-- The number denoted by a digit string, most significant digit first. -/
def valDigits (cs : List Char) : Nat :=
  cs.foldl (fun a c => a * 10 + (digitVal c).getD 0) 0

/-- Digit characters of `n`, most significant first (`[]` for 0); the fuel
argument bounds the recursion depth. -/
def natDigitsAux : Nat → Nat → List Char
  | 0, _ => []
  | fuel + 1, n =>
    if n = 0 then [] else natDigitsAux fuel (n / 10) ++ [digitChar (n % 10)]

/-- Decimal rendering of a natural number. -/
def natRepr (n : Nat) : List Char := if n = 0 then ['0'] else natDigitsAux n n

/-- Parse a non-empty all-digit string back to a natural number. -/
def parseNat (cs : List Char) : Option Nat :=
  if cs ≠ [] ∧ isDigits cs then some (valDigits cs) else none

theorem digitVal_digitChar (d : Nat) (h : d < 10) : digitVal (digitChar d) = some d := by
  interval_cases d <;> decide

theorem valDigits_append_singleton (cs : List Char) (c : Char) :
    valDigits (cs ++ [c]) = valDigits cs * 10 + (digitVal c).getD 0 := by
  unfold valDigits
  rw [List.foldl_append]
  rfl

theorem natDigitsAux_zero (fuel : Nat) : natDigitsAux fuel 0 = [] := by
  cases fuel <;> rfl

theorem natDigitsAux_correct : ∀ fuel n, 0 < n → n ≤ fuel →
    natDigitsAux fuel n ≠ [] ∧ isDigits (natDigitsAux fuel n) = true ∧
      valDigits (natDigitsAux fuel n) = n := by
  intro fuel
  induction fuel with
  | zero => intro n h1 h2; omega
  | succ fuel ih =>
    intro n h1 h2
    have hne : ¬ n = 0 := by omega
    have hmod10 : n % 10 < 10 := by omega
    simp only [natDigitsAux, if_neg hne]
    by_cases hq : n / 10 = 0
    · have hsmall : n < 10 := by omega
      have hmod : n % 10 = n := by omega
      rw [hq, natDigitsAux_zero, List.nil_append]
      refine ⟨by simp, ?_, ?_⟩
      · simp [isDigits, digitVal_digitChar (n % 10) hmod10]
      · simp only [valDigits, List.foldl_cons, List.foldl_nil,
          digitVal_digitChar (n % 10) hmod10, Option.getD_some]
        omega
    · have hfuel : n / 10 ≤ fuel := by omega
      obtain ⟨ihne, ihdig, ihval⟩ := ih (n / 10) (by omega) hfuel
      refine ⟨by simp, ?_, ?_⟩
      · simp only [isDigits, List.all_append] at ihdig ⊢
        rw [ihdig]
        simp [digitVal_digitChar (n % 10) hmod10]
      · rw [valDigits_append_singleton, ihval, digitVal_digitChar (n % 10) hmod10]
        simp only [Option.getD_some]
        omega

theorem natRepr_ne_nil (n : Nat) : natRepr n ≠ [] := by
  by_cases h : n = 0
  · subst h; decide
  · unfold natRepr
    rw [if_neg h]
    exact (natDigitsAux_correct n n (by omega) le_rfl).1

theorem isDigits_natRepr (n : Nat) : isDigits (natRepr n) = true := by
  by_cases h : n = 0
  · subst h; decide
  · unfold natRepr
    rw [if_neg h]
    exact (natDigitsAux_correct n n (by omega) le_rfl).2.1

theorem parseNat_natRepr (n : Nat) : parseNat (natRepr n) = some n := by
  by_cases h : n = 0
  · subst h; decide
  · have hcor := natDigitsAux_correct n n (by omega) le_rfl
    unfold natRepr parseNat
    rw [if_neg h, if_pos ⟨hcor.1, hcor.2.1⟩, hcor.2.2]

theorem mem_natRepr_digit (n : Nat) (c : Char) (h : c ∈ natRepr n) :
    (digitVal c).isSome = true :=
  List.all_eq_true.1 (isDigits_natRepr n) c h

theorem slash_not_mem_natRepr (n : Nat) : '/' ∉ natRepr n := by
  intro h
  exact absurd (mem_natRepr_digit n '/' h) (by decide)

theorem comma_not_mem_natRepr (n : Nat) : ',' ∉ natRepr n := by
  intro h
  exact absurd (mem_natRepr_digit n ',' h) (by decide)

theorem newline_not_mem_natRepr (n : Nat) : '\n' ∉ natRepr n := by
  intro h
  exact absurd (mem_natRepr_digit n '\n' h) (by decide)

/-- Decimal rendering of an integer (`'-'` sign when negative). -/
def intRepr (i : Int) : List Char :=
  if i < 0 then '-' :: natRepr i.natAbs else natRepr i.natAbs

/-- Parse an optionally signed digit string back to an integer. -/
def parseInt (cs : List Char) : Option Int :=
  match cs with
  | [] => none
  | c :: rest =>
    if c = '-' then (parseNat rest).map (fun m => -(m : Int))
    else (parseNat (c :: rest)).map (fun m => (m : Int))

theorem parseInt_intRepr (i : Int) : parseInt (intRepr i) = some i := by
  unfold intRepr
  by_cases h : i < 0
  · rw [if_pos h]
    calc parseInt ('-' :: natRepr i.natAbs)
        = (parseNat (natRepr i.natAbs)).map (fun m => -(m : Int)) := rfl
      _ = some (-(i.natAbs : Int)) := by rw [parseNat_natRepr]; rfl
      _ = some i := by rw [Int.ofNat_natAbs_of_nonpos (le_of_lt h), neg_neg]
  · rw [if_neg h]
    cases hrep : natRepr i.natAbs with
    | nil => exact absurd hrep (natRepr_ne_nil _)
    | cons c t =>
      have hdig : (digitVal c).isSome = true :=
        mem_natRepr_digit i.natAbs c (by rw [hrep]; exact List.mem_cons_self _ _)
      have hc : ¬ c = '-' := by
        intro hh
        rw [hh] at hdig
        exact absurd hdig (by decide)
      calc parseInt (c :: t)
          = (parseNat (c :: t)).map (fun m => (m : Int)) := by
            simp [parseInt, if_neg hc]
        _ = (parseNat (natRepr i.natAbs)).map (fun m => (m : Int)) := by rw [← hrep]
        _ = some ((i.natAbs : Int)) := by rw [parseNat_natRepr]; rfl
        _ = some i := by rw [Int.natAbs_of_nonneg (not_lt.1 h)]

theorem slash_not_mem_intRepr (i : Int) : '/' ∉ intRepr i := by
  unfold intRepr
  by_cases h : i < 0
  · rw [if_pos h]
    intro hm
    rcases List.mem_cons.1 hm with hh | hh
    · exact absurd hh (by decide)
    · exact slash_not_mem_natRepr _ hh
  · rw [if_neg h]
    exact slash_not_mem_natRepr _

theorem comma_not_mem_intRepr (i : Int) : ',' ∉ intRepr i := by
  unfold intRepr
  by_cases h : i < 0
  · rw [if_pos h]
    intro hm
    rcases List.mem_cons.1 hm with hh | hh
    · exact absurd hh (by decide)
    · exact comma_not_mem_natRepr _ hh
  · rw [if_neg h]
    exact comma_not_mem_natRepr _

theorem newline_not_mem_intRepr (i : Int) : '\n' ∉ intRepr i := by
  unfold intRepr
  by_cases h : i < 0
  · rw [if_pos h]
    intro hm
    rcases List.mem_cons.1 hm with hh | hh
    · exact absurd hh (by decide)
    · exact newline_not_mem_natRepr _ hh
  · rw [if_neg h]
    exact newline_not_mem_natRepr _

/-- Exact rendering of a rational statistic as `numerator/denominator`
(the reduced fraction, so parsing is the exact inverse). -/
def ratRepr (q : ℚ) : List Char := intRepr q.num ++ '/' :: natRepr q.den

/-- Parse a `numerator/denominator` rendering back to a rational. -/
def parseRat (cs : List Char) : Option ℚ :=
  match splitOnSep '/' cs with
  | [a, b] =>
    match parseInt a, parseNat b with
    | some n, some d => if d = 0 then none else some ((n : ℚ) / (d : ℚ))
    | _, _ => none
  | _ => none

theorem parseRat_ratRepr (q : ℚ) : parseRat (ratRepr q) = some q := by
  have hsplit : splitOnSep '/' (intRepr q.num ++ '/' :: natRepr q.den)
      = [intRepr q.num, natRepr q.den] := by
    rw [splitOnSep_append '/' _ _ (slash_not_mem_intRepr q.num),
      splitOnSep_no_sep '/' _ (slash_not_mem_natRepr q.den)]
  unfold parseRat ratRepr
  rw [hsplit]
  simp only [parseInt_intRepr, parseNat_natRepr]
  rw [if_neg q.den_nz]
  rw [Rat.num_div_den]

theorem comma_not_mem_ratRepr (q : ℚ) : ',' ∉ ratRepr q := by
  unfold ratRepr
  intro hm
  rcases List.mem_append.1 hm with hh | hh
  · exact comma_not_mem_intRepr _ hh
  · rcases List.mem_cons.1 hh with hh2 | hh2
    · exact absurd hh2 (by decide)
    · exact comma_not_mem_natRepr _ hh2

theorem newline_not_mem_ratRepr (q : ℚ) : '\n' ∉ ratRepr q := by
  unfold ratRepr
  intro hm
  rcases List.mem_append.1 hm with hh | hh
  · exact newline_not_mem_intRepr _ hh
  · rcases List.mem_cons.1 hh with hh2 | hh2
    · exact absurd hh2 (by decide)
    · exact newline_not_mem_natRepr _ hh2

/-! ## Dataset Loader -/

/-- Modelled from the spec: the Loader's load-time failures
(`dataset_module.py` is not under `src/`). -/
inductive DatasetError where
  | FileAbsent
  | MissingColumns
  | RowMismatch
deriving DecidableEq, Repr

/-- The columns every valid header must name. -/
def expectedFields : List String :=
  ["age", "gender", "hypertension", "heart_disease", "smoker", "stroke",
   "residence", "glucose", "sleep_hours", "dietary"]

/-- Parse one decimal cell (optional sign, digits, optional fraction part)
to a rational, when the cell is numeric. -/
def parseDec (cs : List Char) : Option ℚ :=
  match splitOnSep '.' cs with
  | [a] => (parseInt a).map (fun i => (i : ℚ))
  | [a, b] =>
    match parseInt a, parseNat b with
    | some i, some fr =>
      some ((i : ℚ) + (if i < 0 then -1 else 1) * (fr : ℚ) / (10 : ℚ) ^ b.length)
    | _, _ => none
  | _ => none

/-- Field coercion at load time: numeric cells parse as numbers, empty and
`N/A` cells are the missing marker, anything else is categorical text. -/
def parseCell (cs : List Char) : Value :=
  match parseDec cs with
  | some q => .num q
  | none =>
    if cs = [] ∨ cs = ['N', '/', 'A'] then .missing else .str (String.mk cs)

/-- Modelled from the spec: `load(path) -> Dataset` over the file's
character contents (`dataset_module.py` is not under `src/`).  The first
line is the header naming the fields; each later line becomes one Record
with its cells coerced by `parseCell`.  Load fails with `MissingColumns`
when the header misses an expected column and with `RowMismatch` when some
row's field count differs from the header's (load aborts: the consistent
policy chosen for the spec's skip-or-abort latitude). -/
def load (text : List Char) : Except DatasetError Dataset :=
  if ∀ f ∈ expectedFields,
      f ∈ (splitOnSep ',' ((splitOnSep '\n' text).headD [])).map
        (fun cell => String.mk cell) then
    if ∀ line ∈ (splitOnSep '\n' text).tail,
        (splitOnSep ',' line).length
          = (splitOnSep ',' ((splitOnSep '\n' text).headD [])).length then
      .ok { header := (splitOnSep ',' ((splitOnSep '\n' text).headD [])).map
              (fun cell => String.mk cell)
            rows := (splitOnSep '\n' text).tail.map
              (fun line => (splitOnSep ',' line).map parseCell) }
    else .error .RowMismatch
  else .error .MissingColumns

/-! ## Result Exporter -/

/-- Modelled from the spec: serialize a ScalarReport as label/value rows,
comma between label and value, newline between rows (`query_module.py` is
not under `src/`). -/
def exportScalar (pairs : List (String × ℚ)) : List Char :=
  joinSep '\n' (pairs.map (fun p => p.1.data ++ ',' :: ratRepr p.2))

/-- Read one label/value row of an exported ScalarReport CSV. -/
def parseScalarLine (line : List Char) : Option (String × ℚ) :=
  match splitOnSep ',' line with
  | [a, b] => (parseRat b).map (fun q => (String.mk a, q))
  | _ => none

/-- Read every label/value row, failing if any row is malformed. -/
def parseScalarLines : List (List Char) → Option (List (String × ℚ))
  | [] => some []
  | l :: ls =>
    match parseScalarLine l, parseScalarLines ls with
    | some p, some ps => some (p :: ps)
    | _, _ => none

/-- Reload an exported ScalarReport CSV from file contents. -/
def reloadScalar (cs : List Char) : Option (List (String × ℚ)) :=
  if cs = [] then some [] else parseScalarLines (splitOnSep '\n' cs)

theorem parseScalarLines_export (pairs : List (String × ℚ))
    (h : ∀ p ∈ pairs, ',' ∉ p.1.data) :
    parseScalarLines (pairs.map (fun p => p.1.data ++ ',' :: ratRepr p.2))
      = some pairs := by
  induction pairs with
  | nil => rfl
  | cons p ps ih =>
    have hp : ',' ∉ p.1.data := h p (List.mem_cons_self _ _)
    have hline : parseScalarLine (p.1.data ++ ',' :: ratRepr p.2) = some p := by
      unfold parseScalarLine
      rw [splitOnSep_append ',' _ _ hp,
        splitOnSep_no_sep ',' _ (comma_not_mem_ratRepr p.2)]
      simp [parseRat_ratRepr]
    simp only [List.map_cons, parseScalarLines, hline,
      ih (fun x hx => h x (List.mem_cons_of_mem _ hx))]

/-! ## Launch cell of `main.ipynb` -/

/-- What one execution of the notebook's launch cell produced: the lines it
printed, whether `run_user_interface` was invoked, and an exception
escaping the cell, were there one. -/
structure ScriptOutcome where
  printed : List String
  uiCalled : Bool
  uncaught : Option String
deriving DecidableEq, Repr

def msgNotFound : String :=
  "Error: Couldn’t find data.csv. Please check the file path."

def msgStarting : String :=
  "Starting the Stroke Data Analytics GUI with data.csv..."

def msgClosed : String := "GUI closed. Thanks for using Stroke Data Analytics!"

def msgOops (e : String) : String := "Oops, something went wrong: " ++ e

def msgTk : String :=
  "Make sure Tkinter is installed and your environment supports GUI popups."

/-- The try block of the launch cell: print the start line, call
`run_user_interface` (abstracted as an arbitrary normal-or-raising
behaviour), print the closing line when it returns normally.  Yields the
lines printed so far and the exception the block raised, if any. -/
def tryBlock (ui : Except String Unit) : List String × Option String :=
  match ui with
  | .ok _ => ([msgStarting, msgClosed], none)
  | .error e => ([msgStarting], some e)

/-- The launch cell of `main.ipynb`: check that the dataset file exists,
print an error if not; otherwise run the try block, and on an exception
print the two diagnostic lines — the `except Exception` handler, so no
exception escapes. -/
def launchScript (fileExists : Bool) (ui : Except String Unit) : ScriptOutcome :=
  if fileExists then
    match tryBlock ui with
    | (out, none) => { printed := out, uiCalled := true, uncaught := none }
    | (out, some e) =>
      { printed := out ++ [msgOops e, msgTk], uiCalled := true, uncaught := none }
  else
    { printed := [msgNotFound], uiCalled := false, uncaught := none }

/-- A small valid CSV input: the full header line and two data rows. -/
def sampleCSV : List Char :=
  ("age,gender,hypertension,heart_disease,smoker,stroke,residence,glucose,sleep_hours,dietary"
    ++ "\n50,Male,1,0,1,1,Urban,100,7,Vegan"
    ++ "\n60,Female,1,0,1,1,Rural,120,6,Mixed").data

/-- C3: for every valid CSV input — some header line and data rows, the
header naming the expected columns and every data row having as many cells
as the header — `load` succeeds, and the Dataset's record count equals the
number of data rows (the lines after the header). -/
theorem load_record_count_equals_data_rows (text h : List Char)
    (rs : List (List Char))
    (hsplit : splitOnSep '\n' text = h :: rs)
    (hhdr : ∀ f ∈ expectedFields,
      f ∈ (splitOnSep ',' h).map (fun cell => String.mk cell))
    (hrows : ∀ line ∈ rs,
      (splitOnSep ',' line).length = (splitOnSep ',' h).length) :
    ∃ ds, load text = .ok ds ∧ ds.rows.length = rs.length := by
  unfold load
  rw [hsplit]
  simp only [List.headD_cons, List.tail_cons]
  rw [if_pos hhdr, if_pos hrows]
  exact ⟨_, rfl, by simp⟩

theorem load_record_count_equals_data_rows_witness :
    ∃ ds, load sampleCSV = .ok ds ∧ ds.rows.length = 2 := by
  obtain ⟨ds, hok, hlen⟩ := load_record_count_equals_data_rows sampleCSV
    "age,gender,hypertension,heart_disease,smoker,stroke,residence,glucose,sleep_hours,dietary".data
    ["50,Male,1,0,1,1,Urban,100,7,Vegan".data,
     "60,Female,1,0,1,1,Rural,120,6,Mixed".data]
    (by decide) (by decide) (by decide)
  exact ⟨ds, hok, hlen⟩

/-- C6: exporting a ScalarReport's label/value pairs to CSV text and
reloading that text yields exactly the pairs again, for every report whose
labels are delimiter-free (no comma, no newline — true of every label the
Query Engine emits for clean categorical data). -/
theorem export_then_reload_roundtrips (pairs : List (String × ℚ))
    (h : ∀ p ∈ pairs, ',' ∉ p.1.data ∧ '\n' ∉ p.1.data) :
    reloadScalar (exportScalar pairs) = some pairs := by
  cases pairs with
  | nil => rfl
  | cons p ps =>
    have hlines : ∀ l ∈ (p :: ps).map (fun p => p.1.data ++ ',' :: ratRepr p.2),
        '\n' ∉ l := by
      intro l hl
      rcases List.mem_map.1 hl with ⟨x, hx, rfl⟩
      intro hmem
      rcases List.mem_append.1 hmem with hh | hh
      · exact (h x hx).2 hh
      · rcases List.mem_cons.1 hh with hh2 | hh2
        · exact absurd hh2 (by decide)
        · exact newline_not_mem_ratRepr _ hh2
    have hne : exportScalar (p :: ps) ≠ [] := by
      unfold exportScalar
      cases ps with
      | nil =>
        simp only [List.map_cons, List.map_nil, joinSep]
        intro hh
        have : ',' ∈ ([] : List Char) := by
          rw [← hh]
          exact List.mem_append.2 (Or.inr (List.mem_cons_self _ _))
        cases this
      | cons p2 ps2 =>
        simp only [List.map_cons, joinSep]
        intro hh
        have : ',' ∈ ([] : List Char) := by
          rw [← hh]
          exact List.mem_append.2 (Or.inl
            (List.mem_append.2 (Or.inr (List.mem_cons_self _ _))))
        cases this
    unfold reloadScalar
    rw [if_neg hne]
    unfold exportScalar
    rw [splitOnSep_joinSep '\n' _ (by simp) hlines]
    exact parseScalarLines_export _ (fun x hx => (h x hx).1)

theorem export_then_reload_roundtrips_witness :
    reloadScalar (exportScalar [("mean_age", 55), ("median_age", 55)])
      = some [("mean_age", 55), ("median_age", 55)] :=
  export_then_reload_roundtrips [("mean_age", 55), ("median_age", 55)] (by decide)

/-- C9: when no file exists at the dataset path the launch cell prints the
error message and never calls `run_user_interface`; the GUI entry point is
invoked only when the file exists — whatever the GUI would then do. -/
theorem launch_requires_existing_file (ui : Except String Unit) :
    (launchScript false ui).printed = [msgNotFound]
    ∧ (launchScript false ui).uiCalled = false
    ∧ ∀ fe : Bool, (launchScript fe ui).uiCalled = true → fe = true := by
  refine ⟨rfl, rfl, ?_⟩
  intro fe hfe
  cases fe
  · exact absurd hfe (by simp [launchScript])
  · rfl

theorem launch_requires_existing_file_witness :
    (launchScript false (Except.ok ())).printed = [msgNotFound]
    ∧ (launchScript false (Except.ok ())).uiCalled = false
    ∧ (true : Bool) = true :=
  ⟨(launch_requires_existing_file (Except.ok ())).1,
   (launch_requires_existing_file (Except.ok ())).2.1,
   (launch_requires_existing_file (Except.ok ())).2.2 true (by decide)⟩

/-- C10: whatever exception `run_user_interface` raises, the launch cell
catches it, prints the two diagnostic lines and terminates normally; for
every file-existence state and every GUI behaviour, no exception escapes
the cell. -/
theorem launch_catches_ui_exception (e : String) :
    (launchScript true (.error e)).uncaught = none
    ∧ msgOops e ∈ (launchScript true (.error e)).printed
    ∧ msgTk ∈ (launchScript true (.error e)).printed
    ∧ ∀ (fe : Bool) (ui : Except String Unit),
        (launchScript fe ui).uncaught = none := by
  refine ⟨rfl, ?_, ?_, ?_⟩
  · simp [launchScript, tryBlock]
  · simp [launchScript, tryBlock]
  · intro fe ui
    cases fe
    · rfl
    · cases ui with
      | ok u => rfl
      | error e2 => rfl

end Stroke
